import Mathlib

/-!
Verification of the core trading engine of the `append` repository
(position/order/strategy execution engine).

The Go source is shallowly embedded: `float64` monetary values are modelled
as exact rationals (`ℚ`), identifiers (`uuid.UUID`) as natural numbers,
and the in-memory monitoring set as a list of order ids.  Timestamp fields
(`CreatedAt`, `UpdatedAt`, `SubmittedAt`, `FilledAt`, `ClosedAt`,
`TriggeredAt`), which are written from the wall clock and carry no logic,
are omitted.  Every definition follows the corresponding Go function
statement by statement; the file name and line of the source are given in
each doc comment.
-/

/-- Side of a position, from `internal/domain/model` (`PositionSide`). -/
inductive PositionSide where
  | Long
  | Short
deriving DecidableEq, Repr

/-- Status of a position, from `internal/domain/model` (`PositionStatus`). -/
inductive PositionStatus where
  | Open
  | Closed
deriving DecidableEq, Repr

/-- A trading position, from `internal/domain/model` (`Position`), with
uuids modelled as naturals and timestamp fields omitted. -/
structure Position where
  id : ℕ
  userId : ℕ
  market : String
  side : PositionSide
  status : PositionStatus
  entryPrice : ℚ
  quantity : ℚ
  initialQuantity : ℚ
  realizedPnL : ℚ
deriving DecidableEq, Repr

/-- The close-detection tolerance `0.00000001` used in
`Position.ReduceQuantity`. -/
def eps : ℚ := 1 / 100000000

/-- Embeds `Position.UpdateQuantity` (model): recompute the weighted
average entry price and add `additionalQty` to the quantity.  The status
field is not touched by the source. -/
def Position.updateQuantity (p : Position) (additionalQty price : ℚ) : Position :=
  let totalValue := p.entryPrice * p.quantity + price * additionalQty
  let newQuantity := p.quantity + additionalQty
  { p with quantity := newQuantity, entryPrice := totalValue / newQuantity }

/-- Embeds `Position.ReduceQuantity` (model): accumulate realized P&L,
subtract `qty`, and close the position when the remaining quantity is at
most `0.00000001`.  The source performs no check that `qty` does not
exceed the current quantity. -/
def Position.reduceQuantity (p : Position) (qty exitPrice : ℚ) : Position :=
  let pnl0 := (exitPrice - p.entryPrice) * qty
  let pnl := if p.side = PositionSide.Short then -pnl0 else pnl0
  let newQuantity := p.quantity - qty
  if newQuantity ≤ eps then
    { p with realizedPnL := p.realizedPnL + pnl, quantity := newQuantity,
             status := PositionStatus.Closed }
  else
    { p with realizedPnL := p.realizedPnL + pnl, quantity := newQuantity }

/-- Side of an order, from `internal/domain/model` (`OrderSide`). -/
inductive OrderSide where
  | bid
  | ask
deriving DecidableEq, Repr

/-- Embeds `Engine.updatePosition` (`internal/service/trading/engine.go`):
a bid fill increases the position, any other side reduces it.  The
position lookup by `order.PositionID` is modelled by passing the looked-up
position directly. -/
def Engine.updatePosition (position : Position) (side : OrderSide) (qty price : ℚ) : Position :=
  if side = OrderSide.bid then
    position.updateQuantity qty price
  else
    position.reduceQuantity qty price

/-- A Long position with entry 100 and quantity 1, used as a concrete
test fixture. -/
def samplePosition : Position :=
  { id := 1, userId := 1, market := "KRW-BTC",
    side := PositionSide.Long, status := PositionStatus.Open,
    entryPrice := 100, quantity := 1, initialQuantity := 1, realizedPnL := 0 }

/-- A Closed position with quantity 0, used as a concrete test fixture. -/
def sampleClosedPosition : Position :=
  { id := 2, userId := 1, market := "KRW-BTC",
    side := PositionSide.Long, status := PositionStatus.Closed,
    entryPrice := 100, quantity := 0, initialQuantity := 1, realizedPnL := 0 }

/-- C1: the claimed invariants fail on the reconciliation path.  An Ask
fill delta of 2 applied through `Engine.updatePosition` to an Open Long
position of quantity 1 drives the quantity to −1 (no
insufficient-quantity error exists on this path), and a Bid fill applied
to a Closed position leaves it Closed with quantity 1 > ε. -/
theorem position_invariants_fail_on_reconciliation_path :
    (Engine.updatePosition samplePosition OrderSide.ask 2 50).quantity = -1 ∧
    (Engine.updatePosition samplePosition OrderSide.ask 2 50).status = PositionStatus.Closed ∧
    (Engine.updatePosition sampleClosedPosition OrderSide.bid 1 100).status = PositionStatus.Closed ∧
    (Engine.updatePosition sampleClosedPosition OrderSide.bid 1 100).quantity > eps := by
  refine ⟨?_, ?_, ?_, ?_⟩ <;>
    simp [Engine.updatePosition, Position.reduceQuantity, Position.updateQuantity,
      samplePosition, sampleClosedPosition, eps] <;> norm_num

/-- Type of an order, from `internal/domain/model` (`OrderType`). -/
inductive OrderType where
  | limit
  | market
deriving DecidableEq, Repr

/-- Status of an order, from `internal/domain/model` (`OrderStatus`).
`PartiallyFilled` embeds the source constant for a partially filled
order. -/
inductive OrderStatus where
  | Pending
  | Submitted
  | PartiallyFilled
  | Filled
  | Cancelled
  | Failed
deriving DecidableEq, Repr

/-- A trading order, from `internal/domain/model` (`Order`), with uuids
modelled as naturals and timestamp fields omitted. -/
structure Order where
  id : ℕ
  userId : ℕ
  positionId : Option ℕ
  market : String
  side : OrderSide
  type : OrderType
  price : Option ℚ
  quantity : ℚ
  executedQuantity : ℚ
  status : OrderStatus
deriving DecidableEq, Repr

/-- Embeds `NewOrder` (model): a fresh order starts Pending with zero
executed quantity and no position attached.  The uuid generated by the
source is modelled as a caller-supplied identifier. -/
def Order.new (id userId : ℕ) (market : String) (side : OrderSide) (type : OrderType)
    (quantity : ℚ) (price : Option ℚ) : Order :=
  { id := id, userId := userId, positionId := none, market := market, side := side,
    type := type, price := price, quantity := quantity, executedQuantity := 0,
    status := OrderStatus.Pending }

/-- Embeds `Order.UpdateExecution` (model): add the fill delta to the
executed quantity, then set Filled when the executed quantity reaches the
requested quantity (an exact comparison in the source, with no ε), or the
partially-filled status when it is positive. -/
def Order.updateExecution (o : Order) (executedQty : ℚ) : Order :=
  let newExecuted := o.executedQuantity + executedQty
  if newExecuted ≥ o.quantity then
    { o with executedQuantity := newExecuted, status := OrderStatus.Filled }
  else if newExecuted > 0 then
    { o with executedQuantity := newExecuted, status := OrderStatus.PartiallyFilled }
  else
    { o with executedQuantity := newExecuted }

/-- An execution (fill) record, from `internal/domain/model`
(`OrderExecution`). -/
structure OrderExecution where
  orderId : ℕ
  price : ℚ
  quantity : ℚ
  fee : ℚ
  total : ℚ
deriving DecidableEq, Repr

/-- Embeds `NewOrderExecution` (model): `total = price * quantity`. -/
def OrderExecution.new (orderId : ℕ) (price quantity fee : ℚ) : OrderExecution :=
  { orderId := orderId, price := price, quantity := quantity, fee := fee,
    total := price * quantity }

/-- The exchange's order response, from the exchange client
(`OrderResponse`): `executedVolume` is `none` when the response string is
empty, otherwise the parsed decimal; `price` is a nullable parsed
decimal. -/
structure OrderResponse where
  state : String
  executedVolume : Option ℚ
  price : Option ℚ
deriving DecidableEq, Repr

/-- Embeds the `switch resp.State` block of `Engine.processOrderUpdate`
(`internal/service/trading/engine.go`): wait/watch keep the order
Submitted, done marks it Filled and removes it from the monitoring set,
cancel marks it Cancelled and removes it; any other state leaves the
order untouched. -/
def Engine.applyStateTable (order : Order) (state : String) (monitoring : List ℕ) :
    Order × List ℕ :=
  if state = "wait" then ({ order with status := OrderStatus.Submitted }, monitoring)
  else if state = "watch" then ({ order with status := OrderStatus.Submitted }, monitoring)
  else if state = "done" then
    ({ order with status := OrderStatus.Filled }, monitoring.erase order.id)
  else if state = "cancel" then
    ({ order with status := OrderStatus.Cancelled }, monitoring.erase order.id)
  else (order, monitoring)

/-- The combined outcome of one reconciliation step: the updated order,
the execution records appended, the (optionally) mutated associated
position, and the monitoring set. -/
structure ReconcileResult where
  order : Order
  executions : List OrderExecution
  position : Option Position
  monitoring : List ℕ
deriving DecidableEq, Repr

/-- Embeds `Engine.processOrderUpdate`
(`internal/service/trading/engine.go`): apply the state table, then, when
the reported executed volume exceeds the recorded executed quantity,
append one execution for the delta (priced at the response's order price,
0 when absent), update the order via `Order.updateExecution`, and update
the associated position via `Engine.updatePosition` when a position is
attached.  The repository writes are modelled by returning the new
state. -/
def Engine.processOrderUpdate (order : Order) (resp : OrderResponse)
    (position : Option Position) (monitoring : List ℕ) : ReconcileResult :=
  let s := Engine.applyStateTable order resp.state monitoring
  let order1 := s.1
  let monitoring1 := s.2
  match resp.executedVolume with
  | none =>
      { order := order1, executions := [], position := position, monitoring := monitoring1 }
  | some executedQty =>
      if executedQty > order1.executedQuantity then
        let newExecutedQty := executedQty - order1.executedQuantity
        let order2 := order1.updateExecution newExecutedQty
        let avgPrice := resp.price.getD 0
        let execution := OrderExecution.new order.id avgPrice newExecutedQty 0
        let position2 :=
          if order.positionId.isSome then
            position.map (fun p => Engine.updatePosition p order.side newExecutedQty avgPrice)
          else position
        { order := order2, executions := [execution], position := position2,
          monitoring := monitoring1 }
      else
        { order := order1, executions := [], position := position, monitoring := monitoring1 }

/-- The executed quantity always advances by exactly the delta passed to
`Order.updateExecution`. -/
theorem Order.updateExecution_executedQuantity (o : Order) (d : ℚ) :
    (o.updateExecution d).executedQuantity = o.executedQuantity + d := by
  unfold Order.updateExecution
  dsimp only
  split_ifs <;> rfl

/-- Fields other than the status and the monitoring set are preserved by
the state-transition table. -/
theorem Engine.applyStateTable_preserves (o : Order) (s : String) (m : List ℕ) :
    (Engine.applyStateTable o s m).1.executedQuantity = o.executedQuantity ∧
    (Engine.applyStateTable o s m).1.quantity = o.quantity := by
  unfold Engine.applyStateTable
  split_ifs <;> exact ⟨rfl, rfl⟩

/-- When the reported executed volume strictly exceeds the recorded
executed quantity, the reconciled order is the state-table order put
through `Order.updateExecution` on the delta. -/
theorem Engine.processOrderUpdate_order_of_gt (o : Order) (s : String) (v : ℚ)
    (pr : Option ℚ) (pos : Option Position) (mon : List ℕ)
    (hv : o.executedQuantity < v) :
    (Engine.processOrderUpdate o ⟨s, some v, pr⟩ pos mon).order =
      (Engine.applyStateTable o s mon).1.updateExecution (v - o.executedQuantity) := by
  obtain ⟨he, _⟩ := Engine.applyStateTable_preserves o s mon
  unfold Engine.processOrderUpdate
  dsimp only
  rw [he, if_pos (show v > o.executedQuantity from hv)]

/-- A Submitted bid order for quantity 1 with no fills yet, used as a
concrete test fixture. -/
def sampleOrder : Order :=
  { id := 1, userId := 1, positionId := none, market := "KRW-BTC",
    side := OrderSide.bid, type := OrderType.limit, price := some 100,
    quantity := 1, executedQuantity := 0, status := OrderStatus.Submitted }

/-- A wait-state response whose executed volume `1 − ε/2` lies within ε
of the order quantity 1 but below it. -/
def respWaitNearFull : OrderResponse :=
  { state := "wait", executedVolume := some (1 - eps / 2), price := some 100 }

/-- C3 counterexample: reconciling `sampleOrder` (quantity 1, nothing
executed) against a wait response reporting executed volume `1 − ε/2`
leaves the executed quantity in `[quantity − ε, quantity)` yet the status
is the partially-filled status, not Filled: the source's coercion in
`Order.UpdateExecution` compares against the full quantity with no ε. -/
theorem filled_coercion_has_no_epsilon :
    (Engine.processOrderUpdate sampleOrder respWaitNearFull none []).order.executedQuantity ≥
      sampleOrder.quantity - eps ∧
    (Engine.processOrderUpdate sampleOrder respWaitNearFull none []).order.executedQuantity <
      sampleOrder.quantity ∧
    (Engine.processOrderUpdate sampleOrder respWaitNearFull none []).order.status =
      OrderStatus.PartiallyFilled := by
  have key : (Engine.processOrderUpdate sampleOrder respWaitNearFull none []).order =
      Order.updateExecution
        { sampleOrder with status := OrderStatus.Submitted } (1 - eps / 2) := by
    have h := Engine.processOrderUpdate_order_of_gt sampleOrder "wait" (1 - eps / 2)
      (some 100) none [] (by norm_num [sampleOrder, eps])
    rw [show respWaitNearFull = ⟨"wait", some (1 - eps / 2), some 100⟩ from rfl, h]
    norm_num [Engine.applyStateTable, sampleOrder]
  rw [key]
  refine ⟨?_, ?_, ?_⟩ <;>
    norm_num [Order.updateExecution, sampleOrder, eps]

/-- C3 amended: whenever a reconciliation response carries a positive
fill delta (reported executed volume strictly above the non-negative
recorded executed quantity), the resulting order records exactly the
reported volume, and its status is Filled exactly when that volume
reaches the full order quantity — the exact threshold, with no ε
tolerance, regardless of the reported exchange state. -/
theorem processOrderUpdate_filled_iff (o : Order) (s : String) (v : ℚ) (pr : Option ℚ)
    (pos : Option Position) (mon : List ℕ)
    (h0 : 0 ≤ o.executedQuantity) (hv : o.executedQuantity < v) :
    (Engine.processOrderUpdate o ⟨s, some v, pr⟩ pos mon).order.executedQuantity = v ∧
    ((Engine.processOrderUpdate o ⟨s, some v, pr⟩ pos mon).order.status = OrderStatus.Filled ↔
      o.quantity ≤ v) := by
  obtain ⟨he, hq⟩ := Engine.applyStateTable_preserves o s mon
  rw [Engine.processOrderUpdate_order_of_gt o s v pr pos mon hv]
  constructor
  · rw [Order.updateExecution_executedQuantity, he]
    ring
  · unfold Order.updateExecution
    dsimp only
    rw [he, hq]
    split_ifs with h1 h2
    · simp only [true_iff]
      linarith
    · have hnot : ¬ o.quantity ≤ v := fun hc => h1 (by linarith)
      simp [hnot]
    · exfalso
      push_neg at h2
      linarith

/-- C3 amended, witness: the fixture order (quantity 1, nothing yet
executed) with reported volume 1 satisfies the hypotheses, records
executed quantity 1, and is Filled since 1 reaches the quantity. -/
theorem processOrderUpdate_filled_iff_witness :
    (0 ≤ sampleOrder.executedQuantity ∧ sampleOrder.executedQuantity < 1) ∧
    ((Engine.processOrderUpdate sampleOrder ⟨"wait", some 1, some 100⟩ none []).order.executedQuantity = 1 ∧
     ((Engine.processOrderUpdate sampleOrder ⟨"wait", some 1, some 100⟩ none []).order.status =
        OrderStatus.Filled ↔ sampleOrder.quantity ≤ 1)) :=
  ⟨⟨by norm_num [sampleOrder], by norm_num [sampleOrder]⟩,
    processOrderUpdate_filled_iff sampleOrder "wait" 1 (some 100) none []
      (by norm_num [sampleOrder]) (by norm_num [sampleOrder])⟩

/-- Full characterization of a reconciliation step that detects a
positive fill delta: one execution for the delta is appended, the order
goes through `Order.updateExecution`, and the attached position (when
present) through `Engine.updatePosition`. -/
theorem Engine.processOrderUpdate_of_gt (o : Order) (s : String) (v : ℚ) (pr : Option ℚ)
    (pos : Option Position) (mon : List ℕ) (hv : o.executedQuantity < v) :
    Engine.processOrderUpdate o ⟨s, some v, pr⟩ pos mon =
      { order := (Engine.applyStateTable o s mon).1.updateExecution (v - o.executedQuantity),
        executions := [OrderExecution.new o.id (pr.getD 0) (v - o.executedQuantity) 0],
        position :=
          if o.positionId.isSome then
            pos.map (fun p => Engine.updatePosition p o.side (v - o.executedQuantity) (pr.getD 0))
          else pos,
        monitoring := (Engine.applyStateTable o s mon).2 } := by
  obtain ⟨he, _⟩ := Engine.applyStateTable_preserves o s mon
  unfold Engine.processOrderUpdate
  dsimp only
  rw [he, if_pos (show v > o.executedQuantity from hv)]

/-- A reconciliation step with no positive fill delta only applies the
state-transition table. -/
theorem Engine.processOrderUpdate_of_not_gt (o : Order) (s : String) (v : ℚ) (pr : Option ℚ)
    (pos : Option Position) (mon : List ℕ) (hv : ¬ o.executedQuantity < v) :
    Engine.processOrderUpdate o ⟨s, some v, pr⟩ pos mon =
      { order := (Engine.applyStateTable o s mon).1, executions := [], position := pos,
        monitoring := (Engine.applyStateTable o s mon).2 } := by
  obtain ⟨he, _⟩ := Engine.applyStateTable_preserves o s mon
  unfold Engine.processOrderUpdate
  dsimp only
  rw [he, if_neg (show ¬ v > o.executedQuantity from hv)]

/-- A reconciliation step with an empty executed-volume string only
applies the state-transition table. -/
theorem Engine.processOrderUpdate_of_none (o : Order) (s : String) (pr : Option ℚ)
    (pos : Option Position) (mon : List ℕ) :
    Engine.processOrderUpdate o ⟨s, none, pr⟩ pos mon =
      { order := (Engine.applyStateTable o s mon).1, executions := [], position := pos,
        monitoring := (Engine.applyStateTable o s mon).2 } := by
  unfold Engine.processOrderUpdate
  dsimp only

/-- A Submitted bid order for quantity 1 attached to position 1, used as
the cancellation-race fixture. -/
def cancelRaceOrder : Order :=
  { id := 1, userId := 1, positionId := some 1, market := "KRW-BTC",
    side := OrderSide.bid, type := OrderType.limit, price := some 100,
    quantity := 1, executedQuantity := 0, status := OrderStatus.Submitted }

/-- An exchange response reporting cancellation with 0.4 executed. -/
def respCancelPartFill : OrderResponse :=
  { state := "cancel", executedVolume := some (2 / 5), price := some 100 }

/-- C7: on the cancellation race (Submitted order of quantity 1 with
nothing recorded, exchange reports cancel with executed volume 0.4), the
code appends one execution of 0.4, records executed quantity 0.4, updates
the position by 0.4, and removes the order from the monitoring set — but
the final status is the partially-filled status, not Cancelled:
`Order.UpdateExecution` runs after the cancel branch of the state table
and overwrites the Cancelled status. -/
theorem cancel_race_ends_partially_filled :
    (Engine.processOrderUpdate cancelRaceOrder respCancelPartFill (some samplePosition)
        [1]).executions = [OrderExecution.new 1 100 (2 / 5) 0] ∧
    (Engine.processOrderUpdate cancelRaceOrder respCancelPartFill (some samplePosition)
        [1]).order.executedQuantity = 2 / 5 ∧
    (Engine.processOrderUpdate cancelRaceOrder respCancelPartFill (some samplePosition)
        [1]).position = some { samplePosition with quantity := 7 / 5 } ∧
    (Engine.processOrderUpdate cancelRaceOrder respCancelPartFill (some samplePosition)
        [1]).monitoring = [] ∧
    (Engine.processOrderUpdate cancelRaceOrder respCancelPartFill (some samplePosition)
        [1]).order.status = OrderStatus.PartiallyFilled ∧
    (Engine.processOrderUpdate cancelRaceOrder respCancelPartFill (some samplePosition)
        [1]).order.status ≠ OrderStatus.Cancelled := by
  have hst : Engine.applyStateTable cancelRaceOrder "cancel" [1] =
      ({ cancelRaceOrder with status := OrderStatus.Cancelled }, []) := rfl
  rw [show respCancelPartFill = ⟨"cancel", some (2 / 5), some 100⟩ from rfl,
    Engine.processOrderUpdate_of_gt cancelRaceOrder "cancel" (2 / 5) (some 100)
      (some samplePosition) [1] (by norm_num [cancelRaceOrder]), hst]
  refine ⟨?_, ?_, ?_, ?_, ?_, ?_⟩ <;>
    norm_num [Order.updateExecution, Engine.updatePosition,
      Position.updateQuantity, OrderExecution.new, cancelRaceOrder, samplePosition] <;>
    decide

/-- A wait-state response reporting the full volume 1 executed. -/
def respWaitFull : OrderResponse :=
  { state := "wait", executedVolume := some 1, price := some 100 }

/-- C8 counterexample: applying the same wait-state full-volume response
twice is not a no-op on the order's status.  The first application coerces
the order to Filled (volume 1 reaches the quantity); the second
application computes a zero delta, so `Order.UpdateExecution` never runs,
and the state table resets the status to Submitted. -/
theorem second_application_resets_status :
    (Engine.processOrderUpdate sampleOrder respWaitFull none []).order.status =
      OrderStatus.Filled ∧
    (Engine.processOrderUpdate
        (Engine.processOrderUpdate sampleOrder respWaitFull none []).order respWaitFull
        (Engine.processOrderUpdate sampleOrder respWaitFull none []).position
        (Engine.processOrderUpdate sampleOrder respWaitFull none []).monitoring).order.status =
      OrderStatus.Submitted := by
  have h1 : Engine.processOrderUpdate sampleOrder respWaitFull none [] =
      { order := { sampleOrder with executedQuantity := 1, status := OrderStatus.Filled },
        executions := [OrderExecution.new 1 100 1 0], position := none, monitoring := [] } := by
    rw [show respWaitFull = ⟨"wait", some 1, some 100⟩ from rfl,
      Engine.processOrderUpdate_of_gt sampleOrder "wait" 1 (some 100) none []
        (by norm_num [sampleOrder]),
      show Engine.applyStateTable sampleOrder "wait" [] =
        ({ sampleOrder with status := OrderStatus.Submitted }, []) from rfl]
    norm_num [Order.updateExecution, OrderExecution.new, sampleOrder]
  rw [h1]
  refine ⟨rfl, ?_⟩
  rw [show respWaitFull = ⟨"wait", some 1, some 100⟩ from rfl,
    Engine.processOrderUpdate_of_not_gt _ "wait" 1 (some 100) none []
      (by norm_num [sampleOrder])]
  rfl

/-- C8 amended: re-applying the same exchange response is silent on
everything except the status: the second application computes no positive
delta, so it appends no execution, leaves the position untouched, and
leaves the executed quantity unchanged — but the status is recomputed
from the state table alone, which can change it. -/
theorem processOrderUpdate_second_application_silent (o : Order) (resp : OrderResponse)
    (pos : Option Position) (mon : List ℕ) :
    (Engine.processOrderUpdate (Engine.processOrderUpdate o resp pos mon).order resp
        (Engine.processOrderUpdate o resp pos mon).position
        (Engine.processOrderUpdate o resp pos mon).monitoring).executions = [] ∧
    (Engine.processOrderUpdate (Engine.processOrderUpdate o resp pos mon).order resp
        (Engine.processOrderUpdate o resp pos mon).position
        (Engine.processOrderUpdate o resp pos mon).monitoring).position =
      (Engine.processOrderUpdate o resp pos mon).position ∧
    (Engine.processOrderUpdate (Engine.processOrderUpdate o resp pos mon).order resp
        (Engine.processOrderUpdate o resp pos mon).position
        (Engine.processOrderUpdate o resp pos mon).monitoring).order.executedQuantity =
      (Engine.processOrderUpdate o resp pos mon).order.executedQuantity := by
  obtain ⟨s, ev, pr⟩ := resp
  cases ev with
  | none =>
      rw [Engine.processOrderUpdate_of_none o s pr pos mon]
      rw [Engine.processOrderUpdate_of_none _ s pr _ _]
      exact ⟨rfl, rfl, (Engine.applyStateTable_preserves _ s _).1⟩
  | some v =>
      by_cases hv : o.executedQuantity < v
      · have hexec : (Engine.processOrderUpdate o ⟨s, some v, pr⟩ pos mon).order.executedQuantity
            = v := by
          rw [Engine.processOrderUpdate_of_gt o s v pr pos mon hv]
          dsimp only
          rw [Order.updateExecution_executedQuantity,
            (Engine.applyStateTable_preserves o s mon).1]
          ring
        have hnot : ¬ (Engine.processOrderUpdate o ⟨s, some v, pr⟩ pos mon).order.executedQuantity
            < v := by
          rw [hexec]
          exact lt_irrefl v
        rw [Engine.processOrderUpdate_of_not_gt _ s v pr _ _ hnot]
        exact ⟨rfl, rfl, (Engine.applyStateTable_preserves _ s _).1⟩
      · have hexec : (Engine.processOrderUpdate o ⟨s, some v, pr⟩ pos mon).order.executedQuantity
            = o.executedQuantity := by
          rw [Engine.processOrderUpdate_of_not_gt o s v pr pos mon hv]
          exact (Engine.applyStateTable_preserves o s mon).1
        have hnot : ¬ (Engine.processOrderUpdate o ⟨s, some v, pr⟩ pos mon).order.executedQuantity
            < v := by
          rw [hexec]
          exact hv
        rw [Engine.processOrderUpdate_of_not_gt _ s v pr _ _ hnot]
        exact ⟨rfl, rfl, (Engine.applyStateTable_preserves _ s _).1⟩

/-- A request to place an order, from `internal/service/trading`
(`PlaceOrderRequest`).  `splitCount` is a Go `int` (signed); its zero
value 0 is what executors leave when they omit the field. -/
structure PlaceOrderRequest where
  market : String
  side : OrderSide
  type : OrderType
  price : Option ℚ
  quantity : ℚ
  positionId : Option ℕ
  splitCount : ℤ
deriving DecidableEq, Repr

/-- The closing side computed identically by every executor
(`orderSide := Ask; if Short then Bid`): Ask closes a Long, Bid closes a
Short. -/
def closingOrderSide (side : PositionSide) : OrderSide :=
  if side = PositionSide.Short then OrderSide.bid else OrderSide.ask

/-- Embeds the order request built by `StopLossExecutor.Execute`
(`internal/service/strategy`): a Market order for the full position
quantity on the closing side, carrying the position's id.  (The
TrailingStop, TakeProfit, OCO and TimeBasedExit executors build the
identical request.) -/
def StopLossExecutor.executeRequest (position : Position) : PlaceOrderRequest :=
  { market := position.market, side := closingOrderSide position.side,
    type := OrderType.market, price := none, quantity := position.quantity,
    positionId := some position.id, splitCount := 0 }

/-- A Short position with entry 100 and quantity 1, used as a concrete
test fixture. -/
def shortPosition : Position :=
  { id := 3, userId := 1, market := "KRW-BTC",
    side := PositionSide.Short, status := PositionStatus.Open,
    entryPrice := 100, quantity := 1, initialQuantity := 1, realizedPnL := 0 }

/-- C2: the closing order emitted for a Short position is indeed a
Bid-side Market order carrying the position id — but reconciling its full
fill through `Engine.updatePosition` takes the Bid branch, which calls
the increase mutation: the Short position's quantity grows from 1 to 2
(average entry 105) and the position stays Open instead of falling to ε
and closing. -/
theorem short_close_fill_increases_position :
    (StopLossExecutor.executeRequest shortPosition).side = OrderSide.bid ∧
    (StopLossExecutor.executeRequest shortPosition).type = OrderType.market ∧
    (StopLossExecutor.executeRequest shortPosition).positionId = some shortPosition.id ∧
    (StopLossExecutor.executeRequest shortPosition).quantity = shortPosition.quantity ∧
    (Engine.updatePosition shortPosition OrderSide.bid shortPosition.quantity 110).quantity = 2 ∧
    (Engine.updatePosition shortPosition OrderSide.bid shortPosition.quantity 110).quantity >
      shortPosition.quantity ∧
    (Engine.updatePosition shortPosition OrderSide.bid shortPosition.quantity 110).status =
      PositionStatus.Open ∧
    (Engine.updatePosition shortPosition OrderSide.bid shortPosition.quantity 110).entryPrice =
      105 := by
  refine ⟨rfl, rfl, rfl, rfl, ?_, ?_, rfl, ?_⟩ <;>
    norm_num [Engine.updatePosition, Position.updateQuantity, shortPosition]

/-- One liquidation level of a ScaleOut strategy, from
`internal/domain/model` (`ScaleOutLevel`). -/
structure ScaleOutLevel where
  price : ℚ
  percentage : ℚ
  executed : Bool
deriving DecidableEq, Repr

/-- Status of a strategy, from `internal/domain/model`
(`StrategyStatus`). -/
inductive StrategyStatus where
  | Active
  | Triggered
  | Cancelled
  | Completed
deriving DecidableEq, Repr

/-- The per-level trigger test shared by `ScaleOutExecutor.Check` and
`ScaleOutExecutor.Execute` (`internal/service/strategy`): a Long level is
reached when the price rises to it, a Short level when the price falls to
it. -/
def ScaleOutExecutor.levelReached (side : PositionSide) (currentPrice : ℚ)
    (l : ScaleOutLevel) : Bool :=
  if side = PositionSide.Long then decide (currentPrice ≥ l.price)
  else decide (currentPrice ≤ l.price)

/-- Embeds `ScaleOutExecutor.Check`: true when any unexecuted level is
reached. -/
def ScaleOutExecutor.check (levels : List ScaleOutLevel) (side : PositionSide)
    (currentPrice : ℚ) : Bool :=
  levels.any fun l => !l.executed && ScaleOutExecutor.levelReached side currentPrice l

/-- Embeds the loop of `ScaleOutExecutor.Execute`: walk the levels in
order; for every unexecuted reached level, emit a Market order for
`position.Quantity * (percentage / 100)` on the closing side (carrying
the position id, `splitCount` left at its zero value) and mark the level
executed.  Order placement is modelled as succeeding (on a placement
error the source leaves the level unmarked and continues). -/
def ScaleOutExecutor.executeLevels (position : Position) (currentPrice : ℚ) :
    List ScaleOutLevel → List PlaceOrderRequest × List ScaleOutLevel
  | [] => ([], [])
  | l :: rest =>
    if l.executed then
      let r := ScaleOutExecutor.executeLevels position currentPrice rest
      (r.1, l :: r.2)
    else if ScaleOutExecutor.levelReached position.side currentPrice l then
      let quantity := position.quantity * (l.percentage / 100)
      let req : PlaceOrderRequest :=
        { market := position.market, side := closingOrderSide position.side,
          type := OrderType.market, price := none, quantity := quantity,
          positionId := some position.id, splitCount := 0 }
      let r := ScaleOutExecutor.executeLevels position currentPrice rest
      (req :: r.1, { l with executed := true } :: r.2)
    else
      let r := ScaleOutExecutor.executeLevels position currentPrice rest
      (r.1, l :: r.2)

/-- Embeds `Manager.checkStrategy` (`internal/service/strategy/manager.go`)
specialized to a ScaleOut strategy (whose `Update` is a no-op): a closed
position completes the strategy; otherwise, when `Check` fires, `Execute`
runs, the strategy is unconditionally marked Triggered
(`strategy.Trigger()`), and only then, if every level is executed, it is
marked Completed.  Returns the final status, the levels, and the emitted
order requests. -/
def Manager.checkStrategyScaleOut (status : StrategyStatus) (levels : List ScaleOutLevel)
    (position : Position) (currentPrice : ℚ) :
    StrategyStatus × List ScaleOutLevel × List PlaceOrderRequest :=
  if position.status ≠ PositionStatus.Open then (StrategyStatus.Completed, levels, [])
  else if ScaleOutExecutor.check levels position.side currentPrice then
    let r := ScaleOutExecutor.executeLevels position currentPrice levels
    if r.2.all (fun l => l.executed) then (StrategyStatus.Completed, r.2, r.1)
    else (StrategyStatus.Triggered, r.2, r.1)
  else (status, levels, [])

/-- A Long position of quantity 10 used for the ScaleOut fixtures. -/
def scaleOutPosition : Position :=
  { id := 5, userId := 1, market := "KRW-BTC",
    side := PositionSide.Long, status := PositionStatus.Open,
    entryPrice := 100, quantity := 10, initialQuantity := 10, realizedPnL := 0 }

/-- Two 50% liquidation levels at 110 and 120, none executed yet. -/
def twoLevels : List ScaleOutLevel :=
  [{ price := 110, percentage := 50, executed := false },
   { price := 120, percentage := 50, executed := false }]

/-- C4: at price 111 only the first of the two levels fires, the second
stays unexecuted — yet the supervisor marks the strategy Triggered, not
Active (`strategy.Trigger()` runs unconditionally after `Execute`), so
it will never be returned by the active-strategy query again.  When every
level is already executed or fires (price 125 with level 1 done), the
strategy is marked Completed. -/
theorem scaleOut_partial_execute_marks_triggered :
    (Manager.checkStrategyScaleOut StrategyStatus.Active twoLevels scaleOutPosition 111).1 =
      StrategyStatus.Triggered ∧
    (Manager.checkStrategyScaleOut StrategyStatus.Active twoLevels scaleOutPosition 111).1 ≠
      StrategyStatus.Active ∧
    (Manager.checkStrategyScaleOut StrategyStatus.Active twoLevels scaleOutPosition 111).2.1 =
      [{ price := 110, percentage := 50, executed := true },
       { price := 120, percentage := 50, executed := false }] ∧
    (Manager.checkStrategyScaleOut StrategyStatus.Active
        [{ price := 110, percentage := 50, executed := true },
         { price := 120, percentage := 50, executed := false }] scaleOutPosition 125).1 =
      StrategyStatus.Completed := by
  refine ⟨?_, ?_, ?_, ?_⟩ <;>
    norm_num [Manager.checkStrategyScaleOut, ScaleOutExecutor.check,
      ScaleOutExecutor.executeLevels, ScaleOutExecutor.levelReached,
      twoLevels, scaleOutPosition] <;>
    decide

/-- A Long position whose initial quantity 10 has been partly closed:
current quantity 7. -/
def partlyClosedPosition : Position :=
  { id := 4, userId := 1, market := "KRW-BTC",
    side := PositionSide.Long, status := PositionStatus.Open,
    entryPrice := 100, quantity := 7, initialQuantity := 10, realizedPnL := 0 }

/-- C5 counterexample: when a 30% level fires on `partlyClosedPosition`
(initial quantity 10, current quantity 7), the emitted order's quantity
is `7 · 30/100 = 2.1`, not the `10 · 30/100 = 3` the claim's
original-quantity sizing demands: `ScaleOutExecutor.Execute` reads
`position.Quantity`, never `position.InitialQuantity`. -/
theorem scaleOut_quantity_not_from_initial :
    ((ScaleOutExecutor.executeLevels partlyClosedPosition 111
        [{ price := 110, percentage := 30, executed := false }]).1.map
      (fun r => r.quantity)) = [21 / 10] ∧
    (21 / 10 : ℚ) ≠ partlyClosedPosition.initialQuantity * (30 / 100) := by
  refine ⟨?_, ?_⟩ <;>
    norm_num [ScaleOutExecutor.executeLevels, ScaleOutExecutor.levelReached,
      partlyClosedPosition]

/-- C5 amended: every order emitted by a ScaleOut execution is a
closing-side Market order carrying the position id, sized as the
position's *current* quantity times the level's percentage over 100 —
one order per unexecuted level whose price is reached. -/
theorem scaleOut_requests_sized_from_current_quantity (position : Position)
    (currentPrice : ℚ) (levels : List ScaleOutLevel) :
    (ScaleOutExecutor.executeLevels position currentPrice levels).1 =
      (levels.filter (fun l => !l.executed &&
          ScaleOutExecutor.levelReached position.side currentPrice l)).map
        (fun l =>
          { market := position.market, side := closingOrderSide position.side,
            type := OrderType.market, price := none,
            quantity := position.quantity * (l.percentage / 100),
            positionId := some position.id, splitCount := 0 }) := by
  induction levels with
  | nil => rfl
  | cons l rest ih =>
    by_cases he : l.executed
    · simp [ScaleOutExecutor.executeLevels, he, ih]
    · by_cases hr : ScaleOutExecutor.levelReached position.side currentPrice l
      · simp [ScaleOutExecutor.executeLevels, he, hr, ih]
      · simp [ScaleOutExecutor.executeLevels, he, hr, ih]

/-- Outcome of a `PlaceOrder` call: the value returned to the caller
(`none` models the error return), the child orders that reached the order
repository, and the orders handed to asynchronous submission tasks. -/
structure PlaceOrderOutcome where
  result : Option (List Order)
  persisted : List Order
  dispatched : List Order
deriving DecidableEq, Repr

/-- Embeds the creation loop of `Engine.PlaceOrder`
(`internal/service/trading/engine.go`): build each child with `NewOrder`,
attach the request's position id, and persist it; a failing repository
`Create` (modelled by `createFails` on the child index, which also serves
as the generated uuid) aborts the loop with an error.  Arguments are the
child index `i` and the remaining count. -/
def Engine.createChildren (userId : ℕ) (req : PlaceOrderRequest) (quantityPerOrder : ℚ)
    (createFails : ℕ → Bool) : ℕ → ℕ → List Order × Bool
  | _, 0 => ([], true)
  | i, Nat.succ k =>
    if createFails i then ([], false)
    else
      let order := { Order.new i userId req.market req.side req.type quantityPerOrder req.price
                      with positionId := req.positionId }
      let r := Engine.createChildren userId req quantityPerOrder createFails (i + 1) k
      (order :: r.1, r.2)

/-- Embeds `Engine.PlaceOrder` (`internal/service/trading/engine.go`): a
split count below 1 is forced to 1, the quantity is divided evenly among
all children, every child is persisted, and only when every persistence
succeeded are all children dispatched for submission and returned. -/
def Engine.placeOrder (userId : ℕ) (req : PlaceOrderRequest) (createFails : ℕ → Bool) :
    PlaceOrderOutcome :=
  let splitCount : ℤ := if req.splitCount < 1 then 1 else req.splitCount
  let quantityPerOrder : ℚ := req.quantity / (splitCount : ℚ)
  let r := Engine.createChildren userId req quantityPerOrder createFails 0 splitCount.toNat
  if r.2 then { result := some r.1, persisted := r.1, dispatched := r.1 }
  else { result := none, persisted := r.1, dispatched := [] }

/-- With no persistence failures the creation loop produces exactly the
requested number of children, each Pending with the per-child
quantity. -/
theorem Engine.createChildren_no_fail (userId : ℕ) (req : PlaceOrderRequest) (qpo : ℚ) :
    ∀ (n i : ℕ),
      (Engine.createChildren userId req qpo (fun _ => false) i n).2 = true ∧
      (Engine.createChildren userId req qpo (fun _ => false) i n).1.length = n ∧
      ∀ o ∈ (Engine.createChildren userId req qpo (fun _ => false) i n).1,
        o.quantity = qpo ∧ o.status = OrderStatus.Pending := by
  intro n
  induction n with
  | zero => exact fun i => ⟨rfl, rfl, fun o ho => absurd ho (List.not_mem_nil o)⟩
  | succ k ih =>
    intro i
    obtain ⟨h2, hlen, hmem⟩ := ih (i + 1)
    refine ⟨h2, by simp [Engine.createChildren, hlen], ?_⟩
    intro o ho
    rw [show (Engine.createChildren userId req qpo (fun _ => false) i (k + 1)).1 =
        { Order.new i userId req.market req.side req.type qpo req.price
          with positionId := req.positionId } ::
        (Engine.createChildren userId req qpo (fun _ => false) (i + 1) k).1 from rfl] at ho
    rcases List.mem_cons.mp ho with h | h
    · subst h
      exact ⟨rfl, rfl⟩
    · exact hmem o h

/-- A bid fill per order folded through `Engine.updatePosition` adds the
orders' total quantity to the position. -/
theorem foldl_bid_fill_quantity (l : List Order) (p : Position) (fillPrice : ℚ) :
    (l.foldl (fun q o => Engine.updatePosition q OrderSide.bid o.quantity fillPrice) p).quantity =
      p.quantity + (l.map fun o => o.quantity).sum := by
  induction l generalizing p with
  | nil => simp
  | cons o rest ih =>
    rw [List.foldl_cons, ih]
    show (Engine.updatePosition p OrderSide.bid o.quantity fillPrice).quantity + _ = _
    rw [show (Engine.updatePosition p OrderSide.bid o.quantity fillPrice).quantity =
        p.quantity + o.quantity from rfl]
    simp
    ring

/-- C6: with `splitCount = N ≥ 1` and no persistence failure, `PlaceOrder`
creates exactly N children, each (so in particular the first N−1 and the
last alike) carrying quantity Q/N, the quantities sum to exactly Q, and
folding a full bid fill of every child through the position update adds
exactly Q to any position's quantity.  (Exact rational arithmetic; the
source divides `float64`s.) -/
theorem placeOrder_split_exact (userId : ℕ) (req : PlaceOrderRequest)
    (h : 1 ≤ req.splitCount) :
    (Engine.placeOrder userId req (fun _ => false)).persisted.length = req.splitCount.toNat ∧
    (∀ o ∈ (Engine.placeOrder userId req (fun _ => false)).persisted,
        o.quantity = req.quantity / (req.splitCount : ℚ)) ∧
    ((Engine.placeOrder userId req (fun _ => false)).persisted.map
        (fun o => o.quantity)).sum = req.quantity ∧
    ∀ (p : Position) (fillPrice : ℚ),
      ((Engine.placeOrder userId req (fun _ => false)).persisted.foldl
          (fun q o => Engine.updatePosition q OrderSide.bid o.quantity fillPrice) p).quantity =
        p.quantity + req.quantity := by
  have hnl : ¬ req.splitCount < 1 := not_lt.mpr h
  have hqpo := Engine.createChildren_no_fail userId req
    (req.quantity / ((req.splitCount : ℤ) : ℚ)) req.splitCount.toNat 0
  have hout : Engine.placeOrder userId req (fun _ => false) =
      { result := some (Engine.createChildren userId req
          (req.quantity / ((req.splitCount : ℤ) : ℚ)) (fun _ => false) 0 req.splitCount.toNat).1,
        persisted := (Engine.createChildren userId req
          (req.quantity / ((req.splitCount : ℤ) : ℚ)) (fun _ => false) 0 req.splitCount.toNat).1,
        dispatched := (Engine.createChildren userId req
          (req.quantity / ((req.splitCount : ℤ) : ℚ)) (fun _ => false) 0 req.splitCount.toNat).1 } := by
    unfold Engine.placeOrder
    dsimp only
    rw [if_neg hnl, if_pos hqpo.1]
  have hcast : ((req.splitCount : ℤ) : ℚ) = (req.splitCount.toNat : ℚ) := by
    rw [← Int.cast_natCast, Int.toNat_of_nonneg (le_trans Int.one_nonneg h)]
  have hn0 : (req.splitCount.toNat : ℚ) ≠ 0 := Nat.cast_ne_zero.mpr (by omega)
  rw [hout]
  obtain ⟨_, hlen, hmem⟩ := hqpo
  have hqeq : ∀ o ∈ (Engine.createChildren userId req
      (req.quantity / ((req.splitCount : ℤ) : ℚ)) (fun _ => false) 0 req.splitCount.toNat).1,
      o.quantity = req.quantity / (req.splitCount : ℚ) := by
    intro o ho
    exact (hmem o ho).1
  have hmapsum : ((Engine.createChildren userId req
      (req.quantity / ((req.splitCount : ℤ) : ℚ)) (fun _ => false) 0 req.splitCount.toNat).1.map
        (fun o => o.quantity)).sum = req.quantity := by
    have hrep : (Engine.createChildren userId req
        (req.quantity / ((req.splitCount : ℤ) : ℚ)) (fun _ => false) 0 req.splitCount.toNat).1.map
          (fun o => o.quantity) =
        List.replicate ((Engine.createChildren userId req
          (req.quantity / ((req.splitCount : ℤ) : ℚ)) (fun _ => false) 0
            req.splitCount.toNat).1.map (fun o => o.quantity)).length
          (req.quantity / ((req.splitCount : ℤ) : ℚ)) := by
      apply List.eq_replicate_of_mem
      intro q hq
      obtain ⟨o, ho, rfl⟩ := List.mem_map.mp hq
      exact (hmem o ho).1
    rw [hrep, List.length_map, hlen, List.sum_replicate, nsmul_eq_mul, hcast, mul_comm]
    exact div_mul_cancel₀ _ hn0
  exact ⟨hlen, hqeq, hmapsum, fun p fillPrice => by rw [foldl_bid_fill_quantity, hmapsum]⟩

/-- A bid request for quantity 1 split into 3 children, used as a
concrete fixture. -/
def splitRequest : PlaceOrderRequest :=
  { market := "KRW-BTC", side := OrderSide.bid, type := OrderType.limit,
    price := some 100, quantity := 1, positionId := some 1, splitCount := 3 }

/-- C6 witness: splitting quantity 1 into 3 children yields 3 children
whose quantities sum to exactly 1, and fully filling them adds exactly 1
to the sample position. -/
theorem placeOrder_split_exact_witness :
    (1 ≤ splitRequest.splitCount) ∧
    (Engine.placeOrder 1 splitRequest (fun _ => false)).persisted.length = 3 ∧
    ((Engine.placeOrder 1 splitRequest (fun _ => false)).persisted.map
        (fun o => o.quantity)).sum = 1 ∧
    ((Engine.placeOrder 1 splitRequest (fun _ => false)).persisted.foldl
        (fun q o => Engine.updatePosition q OrderSide.bid o.quantity 100)
        samplePosition).quantity = samplePosition.quantity + 1 := by
  have h := placeOrder_split_exact 1 splitRequest (by norm_num [splitRequest])
  exact ⟨by norm_num [splitRequest], by rw [h.1]; rfl, h.2.2.1, h.2.2.2 samplePosition 100⟩

/-- When the first failing persistence is the `k`-th create (0-based),
the creation loop aborts with exactly the `k` earlier children, each
still Pending. -/
theorem Engine.createChildren_fails_at (userId : ℕ) (req : PlaceOrderRequest) (qpo : ℚ)
    (createFails : ℕ → Bool) :
    ∀ (n k i : ℕ), k < n → createFails (i + k) = true →
      (∀ j, j < k → createFails (i + j) = false) →
      (Engine.createChildren userId req qpo createFails i n).2 = false ∧
      (Engine.createChildren userId req qpo createFails i n).1.length = k ∧
      ∀ o ∈ (Engine.createChildren userId req qpo createFails i n).1,
        o.status = OrderStatus.Pending := by
  intro n
  induction n with
  | zero => exact fun k i hk => absurd hk (Nat.not_lt_zero k)
  | succ m ih =>
    intro k i hk hfk hprev
    cases k with
    | zero =>
      have hfi : createFails i = true := by rw [← Nat.add_zero i]; exact hfk
      refine ⟨?_, ?_, ?_⟩ <;>
        simp [Engine.createChildren, hfi]
    | succ k' =>
      have hfi : createFails i = false := by
        have := hprev 0 (Nat.succ_pos k')
        rwa [Nat.add_zero] at this
      have hfk' : createFails (i + 1 + k') = true := by
        rw [show i + 1 + k' = i + (k' + 1) from by omega]
        exact hfk
      have hprev' : ∀ j, j < k' → createFails (i + 1 + j) = false := by
        intro j hj
        rw [show i + 1 + j = i + (j + 1) from by omega]
        exact hprev (j + 1) (by omega)
      obtain ⟨h2, hlen, hmem⟩ := ih k' (i + 1) (by omega) hfk' hprev'
      have hunf : Engine.createChildren userId req qpo createFails i (m + 1) =
          ({ Order.new i userId req.market req.side req.type qpo req.price
              with positionId := req.positionId } ::
            (Engine.createChildren userId req qpo createFails (i + 1) m).1,
           (Engine.createChildren userId req qpo createFails (i + 1) m).2) := by
        show (if createFails i then _ else _) = _
        rw [if_neg (by rw [hfi]; exact Bool.false_ne_true)]
      rw [hunf]
      refine ⟨h2, by simp [hlen], ?_⟩
      intro o ho
      rcases List.mem_cons.mp ho with h | h
      · subst h
        rfl
      · exact hmem o h

/-- The creation loop never reads the request's `splitCount` (the child
orders carry no split count), so overwriting it does not change the
loop's outcome. -/
theorem Engine.createChildren_splitCount_irrelevant (userId : ℕ) (req : PlaceOrderRequest)
    (s : ℤ) (qpo : ℚ) (createFails : ℕ → Bool) :
    ∀ (n i : ℕ),
      Engine.createChildren userId { req with splitCount := s } qpo createFails i n =
        Engine.createChildren userId req qpo createFails i n := by
  intro n
  induction n with
  | zero => exact fun i => rfl
  | succ m ih =>
    intro i
    by_cases hf : createFails i
    · simp [Engine.createChildren, hf]
    · simp [Engine.createChildren, hf, ih (i + 1)]

/-- C10: if persisting the `k`-th child fails (all earlier creates
succeeded, `k < splitCount`), `PlaceOrder` returns the error result and
dispatches no submission task, while the `k` children already persisted
remain stored with status Pending; and a request with `splitCount < 1` is
processed exactly as the same request with `splitCount = 1`. -/
theorem placeOrder_create_failure_no_dispatch (userId : ℕ) (req : PlaceOrderRequest)
    (createFails : ℕ → Bool) (k : ℕ)
    (h1 : 1 ≤ req.splitCount) (hk : k < req.splitCount.toNat)
    (hfail : createFails k = true) (hprev : ∀ j, j < k → createFails j = false) :
    (Engine.placeOrder userId req createFails).result = none ∧
    (Engine.placeOrder userId req createFails).dispatched = [] ∧
    (Engine.placeOrder userId req createFails).persisted.length = k ∧
    (∀ o ∈ (Engine.placeOrder userId req createFails).persisted,
        o.status = OrderStatus.Pending) ∧
    ∀ (u : ℕ) (r : PlaceOrderRequest) (f : ℕ → Bool), r.splitCount < 1 →
      Engine.placeOrder u r f = Engine.placeOrder u { r with splitCount := 1 } f := by
  have hnl : ¬ req.splitCount < 1 := not_lt.mpr h1
  have hfail0 : createFails (0 + k) = true := by rwa [Nat.zero_add]
  have hprev0 : ∀ j, j < k → createFails (0 + j) = false := by
    intro j hj
    rw [Nat.zero_add]
    exact hprev j hj
  obtain ⟨h2, hlen, hmem⟩ := Engine.createChildren_fails_at userId req
    (req.quantity / ((req.splitCount : ℤ) : ℚ)) createFails req.splitCount.toNat k 0 hk
    hfail0 hprev0
  have hout : Engine.placeOrder userId req createFails =
      { result := none,
        persisted := (Engine.createChildren userId req
          (req.quantity / ((req.splitCount : ℤ) : ℚ)) createFails 0 req.splitCount.toNat).1,
        dispatched := [] } := by
    unfold Engine.placeOrder
    dsimp only
    rw [if_neg hnl, if_neg (by rw [h2]; exact Bool.false_ne_true)]
  rw [hout]
  refine ⟨rfl, rfl, hlen, hmem, ?_⟩
  intro u r f hr
  unfold Engine.placeOrder
  dsimp only
  rw [if_pos hr, if_neg (show ¬ (1 : ℤ) < 1 from by norm_num),
    Engine.createChildren_splitCount_irrelevant u r 1
      (r.quantity / ((1 : ℤ) : ℚ)) f (Int.toNat 1) 0]

/-- C10 witness: on the 3-way split fixture with the second persistence
failing, `PlaceOrder` errors, dispatches nothing, and has persisted
exactly the one earlier child; and forcing `splitCount = 0` behaves as
`splitCount = 1`. -/
theorem placeOrder_create_failure_no_dispatch_witness :
    (1 ≤ splitRequest.splitCount ∧ 1 < splitRequest.splitCount.toNat ∧
      (fun i => decide (i = 1)) 1 = true) ∧
    (Engine.placeOrder 1 splitRequest (fun i => decide (i = 1))).result = none ∧
    (Engine.placeOrder 1 splitRequest (fun i => decide (i = 1))).dispatched = [] ∧
    (Engine.placeOrder 1 splitRequest (fun i => decide (i = 1))).persisted.length = 1 ∧
    Engine.placeOrder 1 { splitRequest with splitCount := 0 } (fun i => decide (i = 1)) =
      Engine.placeOrder 1 { splitRequest with splitCount := 1 } (fun i => decide (i = 1)) := by
  have h := placeOrder_create_failure_no_dispatch 1 splitRequest (fun i => decide (i = 1)) 1
    (by norm_num [splitRequest]) (by norm_num [splitRequest]) (by decide)
    (by
      intro j hj
      have hj0 : j = 0 := by omega
      subst hj0
      decide)
  exact ⟨⟨by norm_num [splitRequest], by norm_num [splitRequest], by decide⟩,
    h.1, h.2.1, h.2.2.1,
    h.2.2.2.2 1 { splitRequest with splitCount := 0 } (fun i => decide (i = 1))
      (by norm_num [splitRequest])⟩

/-- Trailing-stop strategy configuration, from `internal/domain/model`
(`TrailingStopConfig`). -/
structure TrailingStopConfig where
  trailPercent : ℚ
  highestPrice : Option ℚ
  lowestPrice : Option ℚ
  triggerPrice : Option ℚ
deriving DecidableEq, Repr

/-- Embeds `TrailingStopExecutor.Update` (`internal/service/strategy`):
on a new high (Long) the highest price and the trigger
`price·(1 − trailPercent/100)` are recorded; on a new low (Short) the
lowest price and `price·(1 + trailPercent/100)`; otherwise the
configuration is unchanged. -/
def TrailingStopExecutor.update (config : TrailingStopConfig) (side : PositionSide)
    (currentPrice : ℚ) : TrailingStopConfig :=
  if side = PositionSide.Long then
    match config.highestPrice with
    | none =>
        { config with
          highestPrice := some currentPrice
          triggerPrice := some (currentPrice * (1 - config.trailPercent / 100)) }
    | some hp =>
        if currentPrice > hp then
          { config with
            highestPrice := some currentPrice
            triggerPrice := some (currentPrice * (1 - config.trailPercent / 100)) }
        else config
  else
    match config.lowestPrice with
    | none =>
        { config with
          lowestPrice := some currentPrice
          triggerPrice := some (currentPrice * (1 + config.trailPercent / 100)) }
    | some lp =>
        if currentPrice < lp then
          { config with
            lowestPrice := some currentPrice
            triggerPrice := some (currentPrice * (1 + config.trailPercent / 100)) }
        else config

/-- Embeds `Manager.CreateStrategy`
(`internal/service/strategy/manager.go`) specialized to a TrailingStop
strategy: verify ownership and that the position is Open, then (the
trailing-stop executor being registered at startup) create the strategy
Active, initialize its configuration with one `Update` at the current
price (the price fetch is modelled as succeeding), and persist it.  The
function performs no validation of `trailPercent`. -/
def Manager.createTrailingStopStrategy (userId : ℕ) (position : Position)
    (config : TrailingStopConfig) (currentPrice : ℚ) :
    Except String (StrategyStatus × TrailingStopConfig) :=
  if position.userId ≠ userId then
    Except.error "unauthorized: position does not belong to user"
  else if position.status ≠ PositionStatus.Open then
    Except.error "cannot create strategy for closed position"
  else
    Except.ok (StrategyStatus.Active,
      TrailingStopExecutor.update config position.side currentPrice)

/-- A standalone trailing stop, from `internal/domain/model`
(`TrailingStop`), with uuids as naturals and timestamps omitted. -/
structure TrailingStop where
  positionId : ℕ
  trailPercent : ℚ
  highestPrice : Option ℚ
  lowestPrice : Option ℚ
  triggerPrice : Option ℚ
  isActive : Bool
deriving DecidableEq, Repr

/-- Embeds `NewTrailingStop` (model). -/
def TrailingStop.new (positionId : ℕ) (trailPercent : ℚ) : TrailingStop :=
  { positionId := positionId, trailPercent := trailPercent, highestPrice := none,
    lowestPrice := none, triggerPrice := none, isActive := true }

/-- Embeds `TrailingStop.UpdatePrice` (model): track the favourable
extreme and recompute the trigger; report a trigger when the price
crosses the recorded trigger without setting a new extreme. -/
def TrailingStop.updatePrice (ts : TrailingStop) (currentPrice : ℚ)
    (positionSide : PositionSide) : TrailingStop × Bool :=
  if positionSide = PositionSide.Long then
    match ts.highestPrice with
    | none =>
        ({ ts with
           highestPrice := some currentPrice
           triggerPrice := some (currentPrice * (1 - ts.trailPercent / 100)) }, false)
    | some hp =>
        if currentPrice > hp then
          ({ ts with
             highestPrice := some currentPrice
             triggerPrice := some (currentPrice * (1 - ts.trailPercent / 100)) }, false)
        else
          match ts.triggerPrice with
          | some tp => if currentPrice ≤ tp then (ts, true) else (ts, false)
          | none => (ts, false)
  else
    match ts.lowestPrice with
    | none =>
        ({ ts with
           lowestPrice := some currentPrice
           triggerPrice := some (currentPrice * (1 + ts.trailPercent / 100)) }, false)
    | some lp =>
        if currentPrice < lp then
          ({ ts with
             lowestPrice := some currentPrice
             triggerPrice := some (currentPrice * (1 + ts.trailPercent / 100)) }, false)
        else
          match ts.triggerPrice with
          | some tp => if currentPrice ≥ tp then (ts, true) else (ts, false)
          | none => (ts, false)

/-- Embeds `Service.CreateTrailingStop` of the standalone trailing-stop
service (the file also holding the position service): ownership, open
position, no-duplicate and `0 < trailPercent ≤ 100` validation, then a
new trailing stop initialized with one `UpdatePrice` at the current
price (the price fetch is modelled as succeeding). -/
def TrailingStopService.createTrailingStop (userId : ℕ) (position : Position)
    (existing : Bool) (trailPercent currentPrice : ℚ) : Except String TrailingStop :=
  if position.userId ≠ userId then
    Except.error "unauthorized: position does not belong to user"
  else if position.status ≠ PositionStatus.Open then
    Except.error "cannot create trailing stop for closed position"
  else if existing then
    Except.error "trailing stop already exists for this position"
  else if trailPercent ≤ 0 ∨ 100 < trailPercent then
    Except.error "trail percent must be between 0 and 100"
  else
    Except.ok ((TrailingStop.new position.id trailPercent).updatePrice
      currentPrice position.side).1

/-- A trailing-stop configuration with the out-of-range percent 200. -/
def badTrailConfig : TrailingStopConfig :=
  { trailPercent := 200, highestPrice := none, lowestPrice := none, triggerPrice := none }

/-- C9 counterexample: the Supervisor's create path persists an Active
TrailingStop strategy with `trailPercent = 200 > 100` instead of failing
— the percent-range validation exists only in the standalone
trailing-stop service.  (The initialized trigger price is even the
negative `100·(1 − 200/100) = −100`.) -/
theorem supervisor_accepts_out_of_range_trailPercent :
    Manager.createTrailingStopStrategy 1 samplePosition badTrailConfig 100 =
      Except.ok (StrategyStatus.Active,
        { trailPercent := 200, highestPrice := some 100, lowestPrice := none,
          triggerPrice := some (-100) }) ∧
    ¬ (0 < badTrailConfig.trailPercent ∧ badTrailConfig.trailPercent ≤ 100) := by
  refine ⟨?_, ?_⟩ <;>
    norm_num [Manager.createTrailingStopStrategy, TrailingStopExecutor.update,
      badTrailConfig, samplePosition]

/-- C9 amended: for an owned Open position and an out-of-range trail
percent, the standalone service's create rejects with the validation
error, while the Supervisor's create path succeeds regardless,
persisting the strategy Active with its configuration merely initialized
by one executor update. -/
theorem trailPercent_validated_only_in_service (userId : ℕ) (position : Position)
    (config : TrailingStopConfig) (trailPercent currentPrice : ℚ)
    (hown : position.userId = userId) (hopen : position.status = PositionStatus.Open)
    (hbad : trailPercent ≤ 0 ∨ 100 < trailPercent) :
    TrailingStopService.createTrailingStop userId position false trailPercent currentPrice =
      Except.error "trail percent must be between 0 and 100" ∧
    Manager.createTrailingStopStrategy userId position config currentPrice =
      Except.ok (StrategyStatus.Active,
        TrailingStopExecutor.update config position.side currentPrice) := by
  constructor
  · unfold TrailingStopService.createTrailingStop
    rw [if_neg (fun h => h hown), if_neg (fun h => h hopen),
      if_neg (show ¬ (false : Bool) = true from by simp), if_pos hbad]
  · unfold Manager.createTrailingStopStrategy
    rw [if_neg (fun h => h hown), if_neg (fun h => h hopen)]

/-- C9 amended, witness: at trail percent 200 on the owned Open sample
position, the service create errors and the Supervisor create returns
the Active strategy. -/
theorem trailPercent_validated_only_in_service_witness :
    (samplePosition.userId = 1 ∧ samplePosition.status = PositionStatus.Open ∧
      ((200 : ℚ) ≤ 0 ∨ (100 : ℚ) < 200)) ∧
    TrailingStopService.createTrailingStop 1 samplePosition false 200 100 =
      Except.error "trail percent must be between 0 and 100" ∧
    Manager.createTrailingStopStrategy 1 samplePosition badTrailConfig 100 =
      Except.ok (StrategyStatus.Active,
        TrailingStopExecutor.update badTrailConfig samplePosition.side 100) :=
  ⟨⟨rfl, rfl, Or.inr (by norm_num)⟩,
    trailPercent_validated_only_in_service 1 samplePosition badTrailConfig 200 100
      rfl rfl (Or.inr (by norm_num))⟩
